import Mathlib

/-!
Shallow embedding of the webxr-input-profiles runtime mapping engine.

The `Component` class (constructor and `updateFromGamepad`) is embedded from
the source found in `packages/viewer/dist/index.js` (the component module
appended at its end).  The `VisualResponse` class's implementation is not
among the repository's files (only its unit tests and its caller `Component`
are), so its constructor and `updateFromComponent` are modelled from the
spec's words (§3, §4.1), as marked on each such definition.

Numbers held by `Component` are modelled as rationals (the clamps and
threshold comparisons are exact arithmetic); the visual-response weight
computation is modelled over the reals because the circular-clamp
normalization takes a square root.  JavaScript field absence (`undefined`)
is modelled with `Option`; exceptions are modelled with `Except`.
-/

namespace WebXRProfiles

/-- Discrete interaction state of a component (`Constants.ComponentState`
in the source: `default`, `touched`, `pressed`). -/
inductive ComponentState
  | default
  | touched
  | pressed
  deriving DecidableEq, Repr

/-- The `source` field of a visual response description: which raw value
drives the visualization. -/
inductive Source
  | button
  | xAxis
  | yAxis
  | state
  deriving DecidableEq, Repr

/-- The `property` field of a visual response description. -/
inductive ResponseProperty
  | transform
  | visibility
  deriving DecidableEq, Repr

/-- A visual response weight: a number (for `transform`) or a boolean (for
`visibility`). -/
inductive ResponseValue
  | num (v : ℝ)
  | bool (b : Bool)

/-- A raw `VisualResponseDescription` as it appears in a profile document:
optional fields are `Option`, a missing `states` array is modelled as `[]`
(no claim distinguishes a missing `states` from an empty one). -/
structure VisualResponseDescription where
  rootNodeName : Option String
  targetNodeName : Option String
  source : Option Source
  states : List ComponentState
  property : Option ResponseProperty
  minNodeName : Option String
  maxNodeName : Option String
  deriving DecidableEq, Repr

/-- A constructed VisualResponse: its resolved description after the
defaults of §3 were applied.  The stored weight is not a field here; the
pure weight computation `updateFromComponent` below returns the weight the
object would hold after an update. -/
structure VisualResponse where
  rootNodeName : String
  targetNodeName : String
  source : Source
  states : List ComponentState
  property : ResponseProperty
  minNodeName : String
  maxNodeName : String
  deriving DecidableEq, Repr

/-- Modelled from the spec: the `VisualResponse` constructor (§4.1; its
implementation is not among the repository's files).  It fails with a
ValidationError if `rootNodeName`, `source`, or a non-empty `states` are
missing, or if `property == "visibility"` is requested with a `source`
other than `"state"`; defaults are applied as in §3 (`targetNodeName`
defaults to "VALUE", `minNodeName` to "MIN", `maxNodeName` to "MAX",
`property` to "transform"). -/
def VisualResponse.construct (d : VisualResponseDescription) :
    Except String VisualResponse :=
  match d.rootNodeName, d.source with
  | some root, some src =>
    if d.states = [] then
      Except.error "ValidationError: non-empty states missing"
    else
      let prop := d.property.getD ResponseProperty.transform
      if prop = ResponseProperty.visibility ∧ src ≠ Source.state then
        Except.error "ValidationError: visibility requires a state source"
      else
        Except.ok
          { rootNodeName := root
            targetNodeName := d.targetNodeName.getD "VALUE"
            source := src
            states := d.states
            property := prop
            minNodeName := d.minNodeName.getD "MIN"
            maxNodeName := d.maxNodeName.getD "MAX" }
  | _, _ => Except.error "ValidationError: rootNodeName or source missing"

/-- The component values a visual response reads: the component's current
(already clamped) raw values and discrete state. -/
structure RealComponentValues where
  button : ℝ
  xAxis : ℝ
  yAxis : ℝ
  state : ComponentState

/-- Modelled from the spec: the circular-clamp normalization (§4.1): with
`m = sqrt(x² + y²)`, if `m > 1` rescale `x ← x/m`, `y ← y/m`; if `m == 0`
(covered by `m ≤ 1`) skip the rescale. -/
noncomputable def getNormalizedAxisData (x y : ℝ) : ℝ × ℝ :=
  let hypotenuse := Real.sqrt (x ^ 2 + y ^ 2)
  if 1 < hypotenuse then (x / hypotenuse, y / hypotenuse) else (x, y)

/-- Modelled from the spec: `VisualResponse.updateFromComponent` (§4.1; its
implementation is not among the repository's files).  The JavaScript method
mutates `this.value`; this pure embedding returns the weight it stores. -/
noncomputable def VisualResponse.updateFromComponent (vr : VisualResponse)
    (componentValues : RealComponentValues) : ResponseValue :=
  match vr.source with
  | Source.state =>
    if vr.property = ResponseProperty.visibility then
      ResponseValue.bool (vr.states.contains componentValues.state)
    else
      ResponseValue.num
        (if vr.states.contains componentValues.state then 1 else 0)
  | Source.button =>
    ResponseValue.num
      (if vr.states.contains componentValues.state then
        componentValues.button
      else 0)
  | Source.xAxis =>
    if vr.states.contains componentValues.state then
      ResponseValue.num
        (((getNormalizedAxisData componentValues.xAxis componentValues.yAxis).1 + 1) / 2)
    else ResponseValue.num 0.5
  | Source.yAxis =>
    if vr.states.contains componentValues.state then
      ResponseValue.num
        (((getNormalizedAxisData componentValues.xAxis componentValues.yAxis).2 + 1) / 2)
    else ResponseValue.num 0.5

/-- The `gamepadIndices` record of a component description. -/
structure GamepadIndices where
  button : Option Nat
  xAxis : Option Nat
  yAxis : Option Nat
  deriving DecidableEq, Repr

/-- Number of keys present in a `gamepadIndices` object
(`Object.keys(gamepadIndices).length` in the source). -/
def GamepadIndices.keyCount (gi : GamepadIndices) : Nat :=
  (if gi.button.isSome then 1 else 0)
    + (if gi.xAxis.isSome then 1 else 0)
    + (if gi.yAxis.isSome then 1 else 0)

/-- A raw component description.  The constructor only validates
`visualResponses` and `gamepadIndices`; the name fields are carried along
for the getters. -/
structure ComponentDescription where
  type : Option String
  rootNodeName : Option String
  labelAnchorNodeName : Option String
  touchPointNodeName : Option String
  visualResponses : Option (List VisualResponseDescription)
  gamepadIndices : Option GamepadIndices
  deriving DecidableEq, Repr

/-- The `values` bag of a component: one entry per key of `gamepadIndices`
plus the discrete state.  `none` stands for a key that is absent (or was
assigned JavaScript `undefined`). -/
structure ComponentValues where
  button : Option ℚ
  xAxis : Option ℚ
  yAxis : Option ℚ
  state : ComponentState
  deriving DecidableEq, Repr

/-- A constructed Component. -/
structure Component where
  id : String
  description : ComponentDescription
  visualResponses : List (String × VisualResponse)
  values : ComponentValues
  deriving DecidableEq, Repr

/-- Assignment `obj[k] = v` on a JavaScript object modelled as an ordered
association list: an existing key keeps its position and gets the new
value, a new key is appended. -/
def jsObjectInsert {α : Type} (m : List (String × α)) (k : String) (v : α) :
    List (String × α) :=
  match m with
  | [] => [(k, v)]
  | (k', v') :: rest =>
    if k' = k then (k, v) :: rest else (k', v') :: jsObjectInsert rest k v

/-- Reading `obj[k]` on a JavaScript object modelled as an ordered
association list. -/
def jsObjectLookup {α : Type} (m : List (String × α)) (k : String) :
    Option α :=
  match m with
  | [] => none
  | (k', v) :: rest => if k' = k then some v else jsObjectLookup rest k

/-- The constructor's loop over `description.visualResponses`, carrying the
object built so far: build each VisualResponse and key it by its
`rootNodeName`; a nested construction failure propagates. -/
def buildVisualResponsesFrom (m : List (String × VisualResponse)) :
    List VisualResponseDescription →
      Except String (List (String × VisualResponse))
  | [] => Except.ok m
  | d :: rest => do
    let vr ← VisualResponse.construct d
    buildVisualResponsesFrom (jsObjectInsert m vr.rootNodeName vr) rest

/-- The constructor's loop over `description.visualResponses`, started on
the empty object `this.visualResponses = {}`. -/
def buildVisualResponses (l : List VisualResponseDescription) :
    Except String (List (String × VisualResponse)) :=
  buildVisualResponsesFrom [] l

/-- The constructor's initialization of `this.values`: a zero for every key
present in `gamepadIndices`, plus `state = default`. -/
def initialComponentValues (gi : GamepadIndices) : ComponentValues :=
  { button := gi.button.map (fun _ => (0 : ℚ))
    xAxis := gi.xAxis.map (fun _ => (0 : ℚ))
    yAxis := gi.yAxis.map (fun _ => (0 : ℚ))
    state := ComponentState.default }

/-- The `Component` constructor, embedded from the source.  The JavaScript
guard `!componentId` is true both for a missing argument and for the empty
string (JavaScript falsiness), so both are rejected; `!description
.visualResponses` and `!description.gamepadIndices` only reject a missing
field (an empty array and an empty object are truthy), and an empty
`gamepadIndices` is rejected by the explicit key count check. -/
def Component.construct (componentId : Option String)
    (componentDescription : Option ComponentDescription) :
    Except String Component :=
  match componentId, componentDescription with
  | some cid, some desc =>
    match desc.visualResponses, desc.gamepadIndices with
    | some vrds, some gi =>
      if cid = "" ∨ gi.keyCount = 0 then
        Except.error "Invalid arguments supplied"
      else do
        let vrs ← buildVisualResponses vrds
        Except.ok
          { id := cid
            description := desc
            visualResponses := vrs
            values := initialComponentValues gi }
    | _, _ => Except.error "Invalid arguments supplied"
  | _, _ => Except.error "Invalid arguments supplied"

/-- One entry of `gamepad.buttons`. -/
structure GamepadButton where
  value : ℚ
  touched : Bool
  pressed : Bool
  deriving DecidableEq, Repr

/-- The device snapshot a component polls. -/
structure Gamepad where
  buttons : List GamepadButton
  axes : List ℚ
  deriving DecidableEq, Repr

/-- The button clamp of `updateFromGamepad`:
`v = (v < 0) ? 0 : v; v = (v > 1) ? 1 : v`. -/
def clampButtonValue (v : ℚ) : ℚ :=
  let v1 := if v < 0 then 0 else v
  if v1 > 1 then 1 else v1

/-- The axis clamp of `updateFromGamepad`:
`v = (v < -1) ? -1 : v; v = (v > 1) ? 1 : v`. -/
def clampAxisValue (v : ℚ) : ℚ :=
  let v1 := if v < -1 then -1 else v
  if v1 > 1 then 1 else v1

/-- The "Get and normalize button" block of `updateFromGamepad`.  Reading
`gamepad.buttons[i]` past the end of the array yields `undefined`, and the
following `gamepadButton.value` access throws a TypeError, modelled as
`Except.error`. -/
def applyButtonInput (buttonTouchThreshold : ℚ) (gamepadIndices : GamepadIndices)
    (gamepad : Gamepad) (values : ComponentValues) :
    Except String ComponentValues :=
  match gamepadIndices.button with
  | none => Except.ok values
  | some i =>
    match gamepad.buttons.get? i with
    | none => Except.error "TypeError: cannot read value of undefined"
    | some gamepadButton =>
      let b := clampButtonValue gamepadButton.value
      let st :=
        if gamepadButton.pressed = true ∨ b = 1 then ComponentState.pressed
        else if gamepadButton.touched = true ∨ b > buttonTouchThreshold then
          ComponentState.touched
        else values.state
      Except.ok { values with button := some b, state := st }

/-- The "Get and normalize x axis value" block of `updateFromGamepad`.
Reading `gamepad.axes[i]` past the end yields `undefined`: the clamp
conditionals keep it, no state change happens (`Math.abs(undefined)` is
`NaN`, which compares false), and `undefined` is stored. -/
def applyXAxisInput (axisTouchThreshold : ℚ) (gamepadIndices : GamepadIndices)
    (gamepad : Gamepad) (values : ComponentValues) : ComponentValues :=
  match gamepadIndices.xAxis with
  | none => values
  | some i =>
    match gamepad.axes.get? i with
    | none => { values with xAxis := none }
    | some raw =>
      let a := clampAxisValue raw
      let st :=
        if values.state = ComponentState.default ∧ |a| > axisTouchThreshold then
          ComponentState.touched
        else values.state
      { values with xAxis := some a, state := st }

/-- The "Get and normalize Y axis value" block of `updateFromGamepad`,
symmetric to the x axis block. -/
def applyYAxisInput (axisTouchThreshold : ℚ) (gamepadIndices : GamepadIndices)
    (gamepad : Gamepad) (values : ComponentValues) : ComponentValues :=
  match gamepadIndices.yAxis with
  | none => values
  | some i =>
    match gamepad.axes.get? i with
    | none => { values with yAxis := none }
    | some raw =>
      let a := clampAxisValue raw
      let st :=
        if values.state = ComponentState.default ∧ |a| > axisTouchThreshold then
          ComponentState.touched
        else values.state
      { values with yAxis := some a, state := st }

/-- The values-and-state part of `Component.updateFromGamepad`, embedded
from the source: reset `state` to `default`, then the button block, then
the two axis blocks.  The thresholds (`Constants.ButtonTouchThreshold`,
`Constants.AxisTouchThreshold`) are configuration constants whose values
are not among the repository's files, so they are parameters here. -/
def Component.updateValuesFromGamepad (buttonTouchThreshold axisTouchThreshold : ℚ)
    (gamepadIndices : GamepadIndices) (gamepad : Gamepad)
    (values : ComponentValues) : Except String ComponentValues := do
  let values := { values with state := ComponentState.default }
  let values ← applyButtonInput buttonTouchThreshold gamepadIndices gamepad values
  let values := applyXAxisInput axisTouchThreshold gamepadIndices gamepad values
  pure (applyYAxisInput axisTouchThreshold gamepadIndices gamepad values)

/-- The component values as the visual responses read them: a key holding
`undefined` (or absent) reads as 0 in the normalization (§4.1 reads the
fields directly; the spec's weight algorithm is stated on numbers). -/
def ComponentValues.toReal (v : ComponentValues) : RealComponentValues :=
  { button := ((v.button.getD 0 : ℚ) : ℝ)
    xAxis := ((v.xAxis.getD 0 : ℚ) : ℝ)
    yAxis := ((v.yAxis.getD 0 : ℚ) : ℝ)
    state := v.state }

/-- The whole `Component.updateFromGamepad` tick: the values update
followed by the loop handing the new values to every owned visual response
(`visualResponse.updateFromComponent(this.values)`); the returned list
pairs each response's root node name with the weight it now holds. -/
noncomputable def Component.updateFromGamepad
    (buttonTouchThreshold axisTouchThreshold : ℚ) (c : Component)
    (gamepad : Gamepad) :
    Except String (Component × List (String × ResponseValue)) := do
  let values ← Component.updateValuesFromGamepad buttonTouchThreshold
    axisTouchThreshold (c.description.gamepadIndices.getD ⟨none, none, none⟩)
    gamepad c.values
  Except.ok ({ c with values := values },
    c.visualResponses.map
      (fun p => (p.1, VisualResponse.updateFromComponent p.2 values.toReal)))

/-- Containment of an optional rational in a closed interval; an absent
value is vacuously within range. -/
def optionWithin (lo hi : ℚ) : Option ℚ → Prop
  | none => True
  | some q => lo ≤ q ∧ q ≤ hi

instance (lo hi : ℚ) (o : Option ℚ) : Decidable (optionWithin lo hi o) :=
  match o with
  | none => isTrue trivial
  | some q => inferInstanceAs (Decidable (lo ≤ q ∧ q ≤ hi))

/-- The range invariant of a component's values: the button value (when
present) lies in [0, 1] and each axis value (when present) lies in
[-1, 1]. -/
def ComponentValues.inRange (v : ComponentValues) : Prop :=
  optionWithin 0 1 v.button ∧ optionWithin (-1) 1 v.xAxis ∧
    optionWithin (-1) 1 v.yAxis

instance (v : ComponentValues) : Decidable v.inRange :=
  inferInstanceAs (Decidable (_ ∧ _ ∧ _))

/-- The last entry of a visual-response description list carrying a given
`rootNodeName` (later entries win). -/
def lastDescriptionForRoot :
    List VisualResponseDescription → String → Option VisualResponseDescription
  | [], _ => none
  | d :: rest, r =>
    (lastDescriptionForRoot rest r).elim
      (if d.rootNodeName = some r then some d else none) some

/-! ## Theorems about the visual-response weight computation -/

/-- C7: for every VisualResponse with source "button", updateFromComponent
sets the value to the component's button value when the component's current
state is in the description's states list, and to 0 otherwise. -/
theorem button_response_value (vr : VisualResponse) (cv : RealComponentValues)
    (h : vr.source = Source.button) :
    vr.updateFromComponent cv =
      ResponseValue.num (if vr.states.contains cv.state then cv.button else 0) := by
  unfold VisualResponse.updateFromComponent
  rw [h]

/-- Witness for C7: button = 0.8 with state = default and states = [default]
yields value 0.8, and changing the state to touched yields value 0. -/
theorem button_response_value_witness :
    VisualResponse.updateFromComponent
        ⟨"ROOT", "VALUE", Source.button, [ComponentState.default],
          ResponseProperty.transform, "MIN", "MAX"⟩
        ⟨0.8, 0, 0, ComponentState.default⟩ = ResponseValue.num 0.8 ∧
    VisualResponse.updateFromComponent
        ⟨"ROOT", "VALUE", Source.button, [ComponentState.default],
          ResponseProperty.transform, "MIN", "MAX"⟩
        ⟨0.8, 0, 0, ComponentState.touched⟩ = ResponseValue.num 0 := by
  constructor
  · rw [button_response_value _ _ rfl]
    simp
  · rw [button_response_value _ _ rfl]
    simp

/-- C8: for every VisualResponse with source "state", updateFromComponent
sets the value to the boolean membership of the current state in the
description's states list when the property is "visibility", and to 1 or 0
according to that membership when the property is "transform". -/
theorem state_response_value (vr : VisualResponse) (cv : RealComponentValues)
    (h : vr.source = Source.state) :
    vr.updateFromComponent cv =
      if vr.property = ResponseProperty.visibility then
        ResponseValue.bool (vr.states.contains cv.state)
      else ResponseValue.num (if vr.states.contains cv.state then 1 else 0) := by
  unfold VisualResponse.updateFromComponent
  rw [h]

/-- Witness for C8: a visibility response whose states list holds the
current state reads true, and a transform response whose states list does
not hold it reads 0. -/
theorem state_response_value_witness :
    VisualResponse.updateFromComponent
        ⟨"ROOT", "VALUE", Source.state, [ComponentState.default],
          ResponseProperty.visibility, "MIN", "MAX"⟩
        ⟨0, 0, 0, ComponentState.default⟩ = ResponseValue.bool true ∧
    VisualResponse.updateFromComponent
        ⟨"ROOT", "VALUE", Source.state, [ComponentState.default],
          ResponseProperty.transform, "MIN", "MAX"⟩
        ⟨0, 0, 0, ComponentState.touched⟩ = ResponseValue.num 0 := by
  constructor
  · rw [state_response_value _ _ rfl]
    simp
  · rw [state_response_value _ _ rfl]
    simp

/-- C6: for every VisualResponse with source "xAxis" or "yAxis", whenever
the component's current state is not a member of the description's states
list, updateFromComponent sets the value to exactly 0.5, regardless of the
magnitude of the axis values. -/
theorem axis_response_inactive_half (vr : VisualResponse)
    (cv : RealComponentValues)
    (hsrc : vr.source = Source.xAxis ∨ vr.source = Source.yAxis)
    (hmem : vr.states.contains cv.state = false) :
    vr.updateFromComponent cv = ResponseValue.num 0.5 := by
  rcases hsrc with h | h <;>
    (unfold VisualResponse.updateFromComponent; rw [h, hmem]; simp)

/-- Witness for C6: an x-axis response gated on [default], at state touched
with axis values of magnitude far above 1, reads 0.5. -/
theorem axis_response_inactive_half_witness :
    VisualResponse.updateFromComponent
        ⟨"ROOT", "VALUE", Source.xAxis, [ComponentState.default],
          ResponseProperty.transform, "MIN", "MAX"⟩
        ⟨0, 5, 7, ComponentState.touched⟩ = ResponseValue.num 0.5 :=
  axis_response_inactive_half _ _ (Or.inl rfl) rfl

/-- C5: for every VisualResponseDescription that omits the optional fields,
construction applies the defaults of §3: targetNodeName defaults to
"VALUE", minNodeName to "MIN", maxNodeName to "MAX", and property to
"transform". -/
theorem visualResponse_defaults (d : VisualResponseDescription)
    (vr : VisualResponse)
    (ht : d.targetNodeName = none) (hp : d.property = none)
    (hmin : d.minNodeName = none) (hmax : d.maxNodeName = none)
    (h : VisualResponse.construct d = Except.ok vr) :
    vr.targetNodeName = "VALUE" ∧ vr.minNodeName = "MIN" ∧
      vr.maxNodeName = "MAX" ∧ vr.property = ResponseProperty.transform := by
  unfold VisualResponse.construct at h
  rcases hroot : d.rootNodeName with _ | root <;> rw [hroot] at h <;>
    rcases hsrcd : d.source with _ | src <;> rw [hsrcd] at h <;>
    simp only [] at h
  · cases h
  · cases h
  · cases h
  · split_ifs at h with h1 h2
    injection h with h
    subst h
    refine ⟨?_, ?_, ?_, ?_⟩ <;> simp [ht, hp, hmin, hmax]

/-- Witness for C5: a description carrying only rootNodeName, source and
states is constructed with the four defaults filled in. -/
theorem visualResponse_defaults_witness :
    VisualResponse.targetNodeName
        ⟨"ROOT", "VALUE", Source.button, [ComponentState.default],
          ResponseProperty.transform, "MIN", "MAX"⟩ = "VALUE" ∧
    VisualResponse.minNodeName
        ⟨"ROOT", "VALUE", Source.button, [ComponentState.default],
          ResponseProperty.transform, "MIN", "MAX"⟩ = "MIN" ∧
    VisualResponse.maxNodeName
        ⟨"ROOT", "VALUE", Source.button, [ComponentState.default],
          ResponseProperty.transform, "MIN", "MAX"⟩ = "MAX" ∧
    VisualResponse.property
        ⟨"ROOT", "VALUE", Source.button, [ComponentState.default],
          ResponseProperty.transform, "MIN", "MAX"⟩ = ResponseProperty.transform :=
  visualResponse_defaults
    ⟨some "ROOT", none, some Source.button, [ComponentState.default],
      none, none, none⟩
    _ rfl rfl rfl rfl rfl

/-- C1: for every dual-axis VisualResponse with source "xAxis" or "yAxis"
whose states list includes the component's current state,
updateFromComponent sets value = (a + 1) / 2 where a is the source axis
component after circular-clamp normalization with m = sqrt(x² + y²): inside
the closed unit disk (m ≤ 1, including m = 0) the axis is unchanged, so the
value is exactly (a + 1) / 2; outside it the axis is rescaled by 1/m, so
the value is (a/m + 1) / 2 (hence within any tolerance of it); at
x = 1, y = 1 the value is within 1e-4 of 0.8536. -/
theorem axis_response_circular_clamp (vr : VisualResponse)
    (cv : RealComponentValues)
    (hsrc : vr.source = Source.xAxis ∨ vr.source = Source.yAxis)
    (hmem : vr.states.contains cv.state = true) :
    (Real.sqrt (cv.xAxis ^ 2 + cv.yAxis ^ 2) ≤ 1 →
      vr.updateFromComponent cv = ResponseValue.num
        (((if vr.source = Source.xAxis then cv.xAxis else cv.yAxis) + 1) / 2)) ∧
    (1 < Real.sqrt (cv.xAxis ^ 2 + cv.yAxis ^ 2) →
      vr.updateFromComponent cv = ResponseValue.num
        (((if vr.source = Source.xAxis then cv.xAxis else cv.yAxis)
            / Real.sqrt (cv.xAxis ^ 2 + cv.yAxis ^ 2) + 1) / 2)) ∧
    (∃ v : ℝ,
      VisualResponse.updateFromComponent
          ⟨"ROOT", "VALUE", Source.xAxis, [ComponentState.default],
            ResponseProperty.transform, "MIN", "MAX"⟩
          ⟨0, 1, 1, ComponentState.default⟩ = ResponseValue.num v ∧
        |v - 0.8536| ≤ 1e-4) := by
  refine ⟨?_, ?_, ?_⟩
  · intro hm
    rcases hsrc with h | h <;>
      (unfold VisualResponse.updateFromComponent getNormalizedAxisData
       rw [h, hmem]
       simp [not_lt.mpr hm])
  · intro hm
    rcases hsrc with h | h <;>
      (unfold VisualResponse.updateFromComponent getNormalizedAxisData
       rw [h, hmem]
       simp [hm])
  · have h2 : ((1 : ℝ) ^ 2 + (1 : ℝ) ^ 2) = 2 := by norm_num
    have hgt : (1 : ℝ) < Real.sqrt 2 := by
      rw [show (1 : ℝ) = Real.sqrt 1 from Real.sqrt_one.symm]
      exact Real.sqrt_lt_sqrt (by norm_num) (by norm_num)
    refine ⟨(1 / Real.sqrt 2 + 1) / 2, ?_, ?_⟩
    · unfold VisualResponse.updateFromComponent getNormalizedAxisData
      simp only [h2]
      simp [hgt]
    · have hpos : (0 : ℝ) < Real.sqrt 2 := lt_trans one_pos hgt
      have hlb : (1.41421 : ℝ) < Real.sqrt 2 :=
        (Real.lt_sqrt (by norm_num)).mpr (by norm_num)
      have hub : Real.sqrt 2 < (1.41422 : ℝ) :=
        (Real.sqrt_lt' (by norm_num)).mpr (by norm_num)
      have hinv : (1 / Real.sqrt 2) * Real.sqrt 2 = 1 :=
        one_div_mul_cancel (ne_of_gt hpos)
      have hinvpos : (0 : ℝ) < 1 / Real.sqrt 2 := by positivity
      rw [abs_le]
      constructor <;> nlinarith [hinv, hlb, hub, hinvpos]

/-- Witness for C1: at x = 0.2, y = 0.3 (inside the unit disk, state in the
states list) the x response reads exactly 0.6 and the y response exactly
0.65. -/
theorem axis_response_circular_clamp_witness :
    VisualResponse.updateFromComponent
        ⟨"ROOT", "VALUE", Source.xAxis, [ComponentState.default],
          ResponseProperty.transform, "MIN", "MAX"⟩
        ⟨0, 0.2, 0.3, ComponentState.default⟩ = ResponseValue.num 0.6 ∧
    VisualResponse.updateFromComponent
        ⟨"ROOT", "VALUE", Source.yAxis, [ComponentState.default],
          ResponseProperty.transform, "MIN", "MAX"⟩
        ⟨0, 0.2, 0.3, ComponentState.default⟩ = ResponseValue.num 0.65 := by
  have hm : Real.sqrt (((0.2 : ℝ)) ^ 2 + ((0.3 : ℝ)) ^ 2) ≤ 1 := by
    rw [show ((0.2 : ℝ)) ^ 2 + ((0.3 : ℝ)) ^ 2 = 0.13 by norm_num]
    exact Real.sqrt_le_one.mpr (by norm_num)
  constructor
  · have h := (axis_response_circular_clamp
      ⟨"ROOT", "VALUE", Source.xAxis, [ComponentState.default],
        ResponseProperty.transform, "MIN", "MAX"⟩
      ⟨0, 0.2, 0.3, ComponentState.default⟩ (Or.inl rfl) rfl).1 hm
    rw [h]
    norm_num
  · have h := (axis_response_circular_clamp
      ⟨"ROOT", "VALUE", Source.yAxis, [ComponentState.default],
        ResponseProperty.transform, "MIN", "MAX"⟩
      ⟨0, 0.2, 0.3, ComponentState.default⟩ (Or.inr rfl) rfl).1 hm
    rw [h]
    show ResponseValue.num (((0.3 : ℝ) + 1) / 2) = ResponseValue.num 0.65
    norm_num

/-! ## Helper lemmas about the Component embedding -/

theorem jsObjectLookup_insert {α : Type} (m : List (String × α)) (k r : String)
    (v : α) :
    jsObjectLookup (jsObjectInsert m k v) r =
      if k = r then some v else jsObjectLookup m r := by
  induction m with
  | nil =>
    by_cases h : k = r <;> simp [jsObjectInsert, jsObjectLookup, h]
  | cons p m ih =>
    obtain ⟨k', v'⟩ := p
    by_cases h1 : k' = k
    · subst h1
      by_cases h2 : k' = r <;> simp [jsObjectInsert, jsObjectLookup, h2]
    · by_cases h2 : k' = r
      · subst h2
        have : ¬(k = k') := fun e => h1 e.symm
        simp [jsObjectInsert, jsObjectLookup, h1, this]
      · simp [jsObjectInsert, jsObjectLookup, h1, h2, ih]

theorem jsObjectInsert_keys_mem {α : Type} (m : List (String × α))
    (k r : String) (v : α)
    (h : r ∈ (jsObjectInsert m k v).map Prod.fst) :
    r = k ∨ r ∈ m.map Prod.fst := by
  induction m with
  | nil =>
    simp only [jsObjectInsert, List.map_cons, List.map_nil, List.mem_cons,
      List.not_mem_nil, or_false] at h
    exact Or.inl h
  | cons p m ih =>
    obtain ⟨k', v'⟩ := p
    simp only [jsObjectInsert] at h
    by_cases h1 : k' = k
    · rw [if_pos h1] at h
      simp only [List.map_cons, List.mem_cons] at h
      rcases h with h | h
      · exact Or.inl h
      · exact Or.inr (by simp only [List.map_cons, List.mem_cons]; exact Or.inr h)
    · rw [if_neg h1] at h
      simp only [List.map_cons, List.mem_cons] at h
      rcases h with h | h
      · exact Or.inr (by simp only [List.map_cons, List.mem_cons]; exact Or.inl h)
      · rcases ih h with h' | h'
        · exact Or.inl h'
        · exact Or.inr (by simp only [List.map_cons, List.mem_cons]; exact Or.inr h')

theorem jsObjectInsert_keys_nodup {α : Type} (m : List (String × α))
    (k : String) (v : α) (h : (m.map Prod.fst).Nodup) :
    ((jsObjectInsert m k v).map Prod.fst).Nodup := by
  induction m with
  | nil => simp [jsObjectInsert]
  | cons p m ih =>
    obtain ⟨k', v'⟩ := p
    simp only [List.map_cons, List.nodup_cons] at h
    obtain ⟨hk', hm⟩ := h
    simp only [jsObjectInsert]
    by_cases h1 : k' = k
    · rw [if_pos h1]
      subst h1
      simp only [List.map_cons, List.nodup_cons]
      exact ⟨hk', hm⟩
    · rw [if_neg h1]
      simp only [List.map_cons, List.nodup_cons]
      refine ⟨fun hmem => ?_, ih hm⟩
      rcases jsObjectInsert_keys_mem m k k' v hmem with e | e
      · exact h1 e
      · exact hk' e

theorem visualResponse_construct_rootNodeName (d : VisualResponseDescription)
    (vr : VisualResponse) (h : VisualResponse.construct d = Except.ok vr) :
    d.rootNodeName = some vr.rootNodeName := by
  unfold VisualResponse.construct at h
  rcases hroot : d.rootNodeName with _ | root <;> rw [hroot] at h <;>
    rcases hsrcd : d.source with _ | src <;> rw [hsrcd] at h <;>
    simp only [] at h
  · cases h
  · cases h
  · cases h
  · split_ifs at h with h1 h2
    injection h with h
    subst h
    rfl

theorem except_bind_ok {ε α β : Type} (a : α) (f : α → Except ε β) :
    ((Except.ok a : Except ε α) >>= f) = f a := rfl

theorem except_bind_error {ε α β : Type} (e : ε) (f : α → Except ε β) :
    ((Except.error e : Except ε α) >>= f) = Except.error e := rfl

theorem lastDescriptionForRoot_cons (d : VisualResponseDescription)
    (rest : List VisualResponseDescription) (r : String) :
    lastDescriptionForRoot (d :: rest) r =
      (lastDescriptionForRoot rest r).elim
        (if d.rootNodeName = some r then some d else none) some := rfl

theorem buildVisualResponsesFrom_lookup (l : List VisualResponseDescription)
    (m0 m : List (String × VisualResponse))
    (h : buildVisualResponsesFrom m0 l = Except.ok m) (r : String) :
    jsObjectLookup m r =
      (lastDescriptionForRoot l r).elim (jsObjectLookup m0 r)
        (fun d => (VisualResponse.construct d).toOption) := by
  induction l generalizing m0 with
  | nil =>
    injection h with h
    subst h
    rfl
  | cons d rest ih =>
    unfold buildVisualResponsesFrom at h
    rcases hc : VisualResponse.construct d with e | vr <;> rw [hc] at h <;>
      simp only [except_bind_ok, except_bind_error] at h
    · cases h
    · have step := ih _ h
      rw [step, lastDescriptionForRoot_cons]
      rcases hl : lastDescriptionForRoot rest r with _ | x <;>
        simp only [Option.elim_none, Option.elim_some]
      · rw [jsObjectLookup_insert]
        have hroot := visualResponse_construct_rootNodeName d vr hc
        by_cases hr : d.rootNodeName = some r
        · have hvrr : vr.rootNodeName = r := by
            rw [hroot] at hr
            injection hr
          rw [if_pos hvrr, if_pos hr]
          simp only [Option.elim_some, hc, Except.toOption]
        · have hne : ¬(vr.rootNodeName = r) := fun e => hr (by rw [hroot, e])
          rw [if_neg hne, if_neg hr]
          simp only [Option.elim_none]

theorem buildVisualResponsesFrom_members (l : List VisualResponseDescription)
    (m0 m : List (String × VisualResponse))
    (h : buildVisualResponsesFrom m0 l = Except.ok m) :
    ∀ d ∈ l, ∃ vr, VisualResponse.construct d = Except.ok vr := by
  induction l generalizing m0 with
  | nil => intro d hd; cases hd
  | cons d rest ih =>
    unfold buildVisualResponsesFrom at h
    rcases hc : VisualResponse.construct d with e | vr <;> rw [hc] at h <;>
      simp only [except_bind_ok, except_bind_error] at h
    · cases h
    · intro x hx
      rcases hx with _ | hx
      · exact ⟨vr, hc⟩
      · exact ih _ h x (by assumption)

theorem buildVisualResponsesFrom_ok (l : List VisualResponseDescription)
    (m0 : List (String × VisualResponse))
    (h : ∀ d ∈ l, ∃ vr, VisualResponse.construct d = Except.ok vr) :
    ∃ m, buildVisualResponsesFrom m0 l = Except.ok m := by
  induction l generalizing m0 with
  | nil => exact ⟨m0, rfl⟩
  | cons d rest ih =>
    obtain ⟨vr, hvr⟩ := h d (by simp)
    obtain ⟨m, hm⟩ := ih (jsObjectInsert m0 vr.rootNodeName vr)
      (fun x hx => h x (by simp [hx]))
    refine ⟨m, ?_⟩
    unfold buildVisualResponsesFrom
    rw [hvr, except_bind_ok]
    exact hm

theorem buildVisualResponsesFrom_nodup (l : List VisualResponseDescription)
    (m0 m : List (String × VisualResponse))
    (h : buildVisualResponsesFrom m0 l = Except.ok m)
    (h0 : (m0.map Prod.fst).Nodup) : (m.map Prod.fst).Nodup := by
  induction l generalizing m0 with
  | nil =>
    injection h with h
    subst h
    exact h0
  | cons d rest ih =>
    unfold buildVisualResponsesFrom at h
    rcases hc : VisualResponse.construct d with e | vr <;> rw [hc] at h <;>
      simp only [except_bind_ok, except_bind_error] at h
    · cases h
    · exact ih _ h (jsObjectInsert_keys_nodup _ _ _ h0)

theorem lastDescriptionForRoot_mem (l : List VisualResponseDescription)
    (r : String) (d : VisualResponseDescription)
    (h : lastDescriptionForRoot l r = some d) :
    d ∈ l ∧ d.rootNodeName = some r := by
  induction l with
  | nil => cases h
  | cons x rest ih =>
    rw [lastDescriptionForRoot_cons] at h
    rcases hl : lastDescriptionForRoot rest r with _ | y <;> rw [hl] at h <;>
      simp only [Option.elim_none, Option.elim_some] at h
    · split_ifs at h with hx
      injection h with h
      subst h
      exact ⟨by simp, hx⟩
    · injection h with h
      subst h
      obtain ⟨h1, h2⟩ := ih hl
      exact ⟨by simp [h1], h2⟩

theorem lastDescriptionForRoot_none (l : List VisualResponseDescription)
    (r : String) (h : lastDescriptionForRoot l r = none) :
    ∀ d ∈ l, d.rootNodeName ≠ some r := by
  induction l with
  | nil => intro d hd; cases hd
  | cons x rest ih =>
    rw [lastDescriptionForRoot_cons] at h
    rcases hl : lastDescriptionForRoot rest r with _ | y <;> rw [hl] at h <;>
      simp only [Option.elim_none, Option.elim_some] at h
    · split_ifs at h with hx
      intro d hd
      rcases hd with _ | hd
      · exact hx
      · exact ih hl d (by assumption)
    · cases h

theorem component_construct_ok_inv (cid? : Option String)
    (desc? : Option ComponentDescription) (c : Component)
    (h : Component.construct cid? desc? = Except.ok c) :
    ∃ cid desc vrds gi vrs, cid? = some cid ∧ desc? = some desc ∧
      ¬(cid = "" ∨ gi.keyCount = 0) ∧
      desc.visualResponses = some vrds ∧ desc.gamepadIndices = some gi ∧
      buildVisualResponses vrds = Except.ok vrs ∧
      c = ⟨cid, desc, vrs, initialComponentValues gi⟩ := by
  unfold Component.construct at h
  rcases cid? with _ | cid
  · cases h
  rcases desc? with _ | desc
  · cases h
  simp only [] at h
  rcases hvr : desc.visualResponses with _ | vrds <;> rw [hvr] at h <;>
    rcases hgi : desc.gamepadIndices with _ | gi <;> rw [hgi] at h <;>
    simp only [] at h
  · cases h
  · cases h
  · cases h
  · split_ifs at h with hcond
    rcases hb : buildVisualResponses vrds with e | vrs <;> rw [hb] at h <;>
      simp only [except_bind_ok, except_bind_error] at h
    · cases h
    · injection h with h
      subst h
      exact ⟨cid, desc, vrds, gi, vrs, rfl, rfl, hcond, hvr, hgi, hb, rfl⟩

theorem clampButtonValue_range (v : ℚ) :
    0 ≤ clampButtonValue v ∧ clampButtonValue v ≤ 1 := by
  simp only [clampButtonValue]
  split_ifs <;> constructor <;> linarith

theorem clampAxisValue_range (v : ℚ) :
    -1 ≤ clampAxisValue v ∧ clampAxisValue v ≤ 1 := by
  simp only [clampAxisValue]
  split_ifs <;> constructor <;> linarith

theorem applyButtonInput_some (bt : ℚ) (gi : GamepadIndices) (g : Gamepad)
    (v : ComponentValues) (i : Nat) (b : GamepadButton)
    (hbi : gi.button = some i) (hb : g.buttons.get? i = some b) :
    applyButtonInput bt gi g v = Except.ok
      { v with
        button := some (clampButtonValue b.value)
        state :=
          if b.pressed = true ∨ clampButtonValue b.value = 1 then
            ComponentState.pressed
          else if b.touched = true ∨ clampButtonValue b.value > bt then
            ComponentState.touched
          else v.state } := by
  unfold applyButtonInput
  rw [hbi]
  dsimp only
  rw [hb]

theorem applyXAxisInput_state (ax : ℚ) (gi : GamepadIndices) (g : Gamepad)
    (v : ComponentValues) :
    (applyXAxisInput ax gi g v).state = v.state ∨
      (v.state = ComponentState.default ∧
        (applyXAxisInput ax gi g v).state = ComponentState.touched) := by
  unfold applyXAxisInput
  cases hx : gi.xAxis with
  | none => exact Or.inl rfl
  | some i =>
    dsimp only
    cases hr : g.axes.get? i with
    | none => exact Or.inl rfl
    | some raw =>
      dsimp only
      split_ifs with h
      · exact Or.inr ⟨h.1, rfl⟩
      · exact Or.inl rfl

theorem applyYAxisInput_state (ax : ℚ) (gi : GamepadIndices) (g : Gamepad)
    (v : ComponentValues) :
    (applyYAxisInput ax gi g v).state = v.state ∨
      (v.state = ComponentState.default ∧
        (applyYAxisInput ax gi g v).state = ComponentState.touched) := by
  unfold applyYAxisInput
  cases hy : gi.yAxis with
  | none => exact Or.inl rfl
  | some i =>
    dsimp only
    cases hr : g.axes.get? i with
    | none => exact Or.inl rfl
    | some raw =>
      dsimp only
      split_ifs with h
      · exact Or.inr ⟨h.1, rfl⟩
      · exact Or.inl rfl

theorem applyXAxisInput_touch (ax : ℚ) (gi : GamepadIndices) (g : Gamepad)
    (v : ComponentValues) (i : Nat) (raw : ℚ)
    (h1 : gi.xAxis = some i) (h2 : g.axes.get? i = some raw)
    (h3 : v.state = ComponentState.default)
    (h4 : ax < |clampAxisValue raw|) :
    (applyXAxisInput ax gi g v).state = ComponentState.touched := by
  unfold applyXAxisInput
  rw [h1]
  dsimp only
  rw [h2]
  dsimp only
  rw [if_pos ⟨h3, h4⟩]

theorem state_step_pressed_iff {v w : ComponentValues}
    (hw : w.state = v.state ∨
      (v.state = ComponentState.default ∧ w.state = ComponentState.touched)) :
    (w.state = ComponentState.pressed ↔ v.state = ComponentState.pressed) := by
  rcases hw with h | ⟨h1, h2⟩
  · rw [h]
  · rw [h2, h1]
    decide

theorem state_step_keep {v w : ComponentValues}
    (hw : w.state = v.state ∨
      (v.state = ComponentState.default ∧ w.state = ComponentState.touched))
    (h : v.state ≠ ComponentState.default) : w.state = v.state := by
  rcases hw with h1 | ⟨h1, _⟩
  · exact h1
  · exact absurd h1 h

theorem updateValuesFromGamepad_eq (bt ax : ℚ) (gi : GamepadIndices)
    (g : Gamepad) (v : ComponentValues) :
    Component.updateValuesFromGamepad bt ax gi g v =
      (applyButtonInput bt gi g { v with state := ComponentState.default }).map
        (fun v1 => applyYAxisInput ax gi g (applyXAxisInput ax gi g v1)) := by
  unfold Component.updateValuesFromGamepad
  dsimp only
  rcases applyButtonInput bt gi g { v with state := ComponentState.default }
    with e | v1 <;> rfl

/-! ## Theorems about Component state derivation -/

/-- C2: after updateFromGamepad on a component with a button gamepad index
(the device's button array covering it), the state is pressed iff the
device reports the button pressed or the clamped value equals 1; otherwise
a reported touch or a clamped value above the button-touch threshold makes
it touched; a button-derived pressed/touched state is never overridden by
the axes; and an axis above the axis-touch threshold makes the state
touched only when it is still default. -/
theorem button_state_priority (bt ax : ℚ) (gi : GamepadIndices) (g : Gamepad)
    (v v' : ComponentValues) (i : Nat) (b : GamepadButton)
    (hbi : gi.button = some i) (hb : g.buttons.get? i = some b)
    (h : Component.updateValuesFromGamepad bt ax gi g v = Except.ok v') :
    (v'.state = ComponentState.pressed ↔
      (b.pressed = true ∨ clampButtonValue b.value = 1)) ∧
    (¬(b.pressed = true ∨ clampButtonValue b.value = 1) →
      (b.touched = true ∨ bt < clampButtonValue b.value) →
      v'.state = ComponentState.touched) ∧
    ((b.pressed = true ∨ clampButtonValue b.value = 1) ∨
        (b.touched = true ∨ bt < clampButtonValue b.value) →
      v'.state =
        if b.pressed = true ∨ clampButtonValue b.value = 1 then
          ComponentState.pressed
        else ComponentState.touched) ∧
    (∀ j raw, ¬(b.pressed = true ∨ clampButtonValue b.value = 1) →
      ¬(b.touched = true ∨ bt < clampButtonValue b.value) →
      gi.xAxis = some j → g.axes.get? j = some raw →
      ax < |clampAxisValue raw| → v'.state = ComponentState.touched) := by
  rw [updateValuesFromGamepad_eq,
    applyButtonInput_some bt gi g _ i b hbi hb] at h
  simp only [Except.map] at h
  injection h with h
  set v1 : ComponentValues :=
    { v with
      button := some (clampButtonValue b.value)
      state :=
        if b.pressed = true ∨ clampButtonValue b.value = 1 then
          ComponentState.pressed
        else if b.touched = true ∨ clampButtonValue b.value > bt then
          ComponentState.touched
        else ComponentState.default } with hv1
  have hbtnstate :
      v1.state =
        if b.pressed = true ∨ clampButtonValue b.value = 1 then
          ComponentState.pressed
        else if b.touched = true ∨ clampButtonValue b.value > bt then
          ComponentState.touched
        else ComponentState.default := rfl
  have hx := applyXAxisInput_state ax gi g v1
  have hy := applyYAxisInput_state ax gi g (applyXAxisInput ax gi g v1)
  have hstate : v'.state = (applyYAxisInput ax gi g
      (applyXAxisInput ax gi g v1)).state := by rw [h]
  refine ⟨?_, ?_, ?_, ?_⟩
  · rw [hstate, (state_step_pressed_iff hy).trans (state_step_pressed_iff hx),
      hbtnstate]
    split_ifs with hP hT
    · simp [hP]
    · simp [hP, hT]
    · simp [hP, hT]
  · intro hP hT
    have h1 : v1.state = ComponentState.touched := by
      rw [hbtnstate, if_neg hP, if_pos hT]
    have h2 := state_step_keep hx (by rw [h1]; decide)
    rw [h1] at h2
    have h3 := state_step_keep hy (by rw [h2]; decide)
    rw [hstate, h3, h2]
  · intro hPT
    by_cases hP : b.pressed = true ∨ clampButtonValue b.value = 1
    · rw [if_pos hP]
      have h1 : v1.state = ComponentState.pressed := by
        rw [hbtnstate, if_pos hP]
      have h2 := state_step_keep hx (by rw [h1]; decide)
      rw [h1] at h2
      have h3 := state_step_keep hy (by rw [h2]; decide)
      rw [hstate, h3, h2]
    · rcases hPT with hPT | hT
      · exact absurd hPT hP
      · rw [if_neg hP]
        have h1 : v1.state = ComponentState.touched := by
          rw [hbtnstate, if_neg hP, if_pos hT]
        have h2 := state_step_keep hx (by rw [h1]; decide)
        rw [h1] at h2
        have h3 := state_step_keep hy (by rw [h2]; decide)
        rw [hstate, h3, h2]
  · intro j raw hP hT hxj hraw haxis
    have h1 : v1.state = ComponentState.default := by
      rw [hbtnstate, if_neg hP, if_neg hT]
    have h2 := applyXAxisInput_touch ax gi g v1 j raw hxj hraw h1 haxis
    have h3 := state_step_keep hy (by rw [h2]; decide)
    rw [hstate, h3, h2]

/-- Witness for C2: a touched but unpressed button of analog value 0
yields the touched state. -/
theorem button_state_priority_witness :
    Component.updateValuesFromGamepad 0 0 ⟨some 0, none, none⟩
        ⟨[⟨0, true, false⟩], []⟩
        (initialComponentValues ⟨some 0, none, none⟩) =
      Except.ok ⟨some 0, none, none, ComponentState.touched⟩ ∧
    (⟨some 0, none, none,
        ComponentState.touched⟩ : ComponentValues).state =
      ComponentState.touched := by
  have h : Component.updateValuesFromGamepad 0 0 ⟨some 0, none, none⟩
      ⟨[⟨0, true, false⟩], []⟩
      (initialComponentValues ⟨some 0, none, none⟩) =
      Except.ok ⟨some 0, none, none, ComponentState.touched⟩ := by
    rfl
  refine ⟨h, ?_⟩
  exact (button_state_priority 0 0 ⟨some 0, none, none⟩
      ⟨[⟨0, true, false⟩], []⟩ _ _ 0 ⟨0, true, false⟩
      rfl rfl h).2.1 (by decide) (Or.inl rfl)

/-- C3 (status: the code contradicts the spec's propagation policy): a
component whose `gamepadIndices.button` names a position beyond the
device's buttons array does NOT get a defensive no-op: the embedded update
throws (first conjunct).  An axis index beyond the axes array, by
contrast, does not throw: the stored axis value becomes `undefined` and
the state derivation is unaffected (second conjunct). -/
theorem update_out_of_range_button_throws :
    Component.updateValuesFromGamepad 0 0 ⟨some 1, none, none⟩
        ⟨[⟨0, false, false⟩], []⟩
        (initialComponentValues ⟨some 1, none, none⟩) =
      Except.error "TypeError: cannot read value of undefined" ∧
    Component.updateValuesFromGamepad 0 0 ⟨none, some 5, none⟩
        ⟨[⟨0, false, false⟩], []⟩
        (initialComponentValues ⟨none, some 5, none⟩) =
      Except.ok ⟨none, none, none, ComponentState.default⟩ :=
  ⟨rfl, rfl⟩

theorem optionWithin_map_zero (lo hi : ℚ) (o : Option Nat)
    (h0 : lo ≤ 0) (h1 : 0 ≤ hi) :
    optionWithin lo hi (o.map fun _ => (0 : ℚ)) := by
  cases o
  · exact trivial
  · exact ⟨h0, h1⟩

theorem initialComponentValues_inRange (gi : GamepadIndices) :
    (initialComponentValues gi).inRange :=
  ⟨optionWithin_map_zero _ _ _ le_rfl zero_le_one,
    optionWithin_map_zero _ _ _ (by norm_num) zero_le_one,
    optionWithin_map_zero _ _ _ (by norm_num) zero_le_one⟩

theorem applyButtonInput_inRange (bt : ℚ) (gi : GamepadIndices) (g : Gamepad)
    (v v' : ComponentValues) (hv : v.inRange)
    (h : applyButtonInput bt gi g v = Except.ok v') : v'.inRange := by
  unfold applyButtonInput at h
  rcases hbi : gi.button with _ | i <;> rw [hbi] at h <;> dsimp only at h
  · injection h with h
    subst h
    exact hv
  · rcases hb : g.buttons.get? i with _ | b <;> rw [hb] at h <;> dsimp only at h
    · cases h
    · injection h with h
      subst h
      exact ⟨clampButtonValue_range b.value, hv.2.1, hv.2.2⟩

theorem applyXAxisInput_inRange (ax : ℚ) (gi : GamepadIndices) (g : Gamepad)
    (v : ComponentValues) (hv : v.inRange) :
    (applyXAxisInput ax gi g v).inRange := by
  unfold applyXAxisInput
  cases hx : gi.xAxis with
  | none => exact hv
  | some i =>
    dsimp only
    cases hr : g.axes.get? i with
    | none => exact ⟨hv.1, trivial, hv.2.2⟩
    | some raw =>
      dsimp only
      exact ⟨hv.1, clampAxisValue_range raw, hv.2.2⟩

theorem applyYAxisInput_inRange (ax : ℚ) (gi : GamepadIndices) (g : Gamepad)
    (v : ComponentValues) (hv : v.inRange) :
    (applyYAxisInput ax gi g v).inRange := by
  unfold applyYAxisInput
  cases hy : gi.yAxis with
  | none => exact hv
  | some i =>
    dsimp only
    cases hr : g.axes.get? i with
    | none => exact ⟨hv.1, hv.2.1, trivial⟩
    | some raw =>
      dsimp only
      exact ⟨hv.1, hv.2.1, clampAxisValue_range raw⟩

/-- C9: values.button (when present) lies in [0, 1] and values.xAxis and
values.yAxis (when present) lie in [-1, 1], for any device snapshot
including raw readings outside the nominal ranges: the invariant holds for
every freshly constructed component and is preserved by every successful
updateFromGamepad. -/
theorem component_values_range_invariant (bt ax : ℚ) (gi : GamepadIndices)
    (g : Gamepad) (v v' : ComponentValues) (hv : v.inRange)
    (h : Component.updateValuesFromGamepad bt ax gi g v = Except.ok v') :
    (∀ cid desc c, Component.construct cid desc = Except.ok c →
      c.values.inRange) ∧
    v'.inRange := by
  constructor
  · intro cid desc c hc
    obtain ⟨_, _, _, gi', _, _, _, _, _, _, _, hceq⟩ :=
      component_construct_ok_inv _ _ _ hc
    rw [hceq]
    exact initialComponentValues_inRange gi'
  · rw [updateValuesFromGamepad_eq] at h
    rcases hb : applyButtonInput bt gi g { v with state := ComponentState.default }
      with e | v1 <;> rw [hb] at h <;> simp only [Except.map] at h
    · cases h
    · injection h with h
      subst h
      exact applyYAxisInput_inRange _ _ _ _
        (applyXAxisInput_inRange _ _ _ _
          (applyButtonInput_inRange bt gi g
            { v with state := ComponentState.default } v1
            ⟨hv.1, hv.2.1, hv.2.2⟩ hb))

/-- Witness for C9: a raw axis reading of 3 is clamped to 1 and the
resulting values satisfy the range invariant. -/
theorem component_values_range_invariant_witness :
    (⟨none, some 1, none, ComponentState.touched⟩ : ComponentValues).inRange :=
  (component_values_range_invariant 0 0 ⟨none, some 0, none⟩ ⟨[], [3]⟩
    (initialComponentValues ⟨none, some 0, none⟩)
    ⟨none, some 1, none, ComponentState.touched⟩
    (initialComponentValues_inRange _) (by rfl)).2

/-- Counterexample for C4: a present but empty componentId ("" is falsy in
JavaScript) is rejected even though neither componentId, nor the
description, nor visualResponses, nor gamepadIndices is missing and
gamepadIndices has a key — so construction does not throw *exactly* when
something is missing or gamepadIndices is empty. -/
theorem component_construct_empty_id_error :
    Component.construct (some "")
        (some ⟨none, none, none, none, some [], some ⟨some 0, none, none⟩⟩) =
      Except.error "Invalid arguments supplied" := rfl

/-- C4 (amended): construction fails exactly when componentId is missing or
empty, the description or its visualResponses or gamepadIndices is missing,
gamepadIndices has zero keys, or a nested VisualResponse construction
fails; with a non-empty gamepadIndices and an empty visualResponses array
it succeeds with an empty VisualResponse set; the constructed values are
one zero-valued entry per key of gamepadIndices plus state = default; and
no Component is produced when a nested VisualResponse construction
fails. -/
theorem component_construct_validation (cid : String)
    (desc : ComponentDescription) :
    ((Component.construct none (some desc)).isOk = false) ∧
    ((Component.construct (some cid) none).isOk = false) ∧
    ((Component.construct (some cid) (some desc)).isOk = true ↔
      (cid ≠ "" ∧ ∃ vrds gi, desc.visualResponses = some vrds ∧
        desc.gamepadIndices = some gi ∧ gi.keyCount ≠ 0 ∧
        ∀ d ∈ vrds, ∃ vr, VisualResponse.construct d = Except.ok vr)) ∧
    (∀ gi, desc.visualResponses = some [] → desc.gamepadIndices = some gi →
      cid ≠ "" → gi.keyCount ≠ 0 →
      Component.construct (some cid) (some desc) =
        Except.ok ⟨cid, desc, [], initialComponentValues gi⟩) ∧
    (∀ gi c, desc.gamepadIndices = some gi →
      Component.construct (some cid) (some desc) = Except.ok c →
      c.values = initialComponentValues gi) := by
  refine ⟨rfl, rfl, ?_, ?_, ?_⟩
  · constructor
    · intro h
      rcases hc : Component.construct (some cid) (some desc) with e | c <;>
        rw [hc] at h
      · cases h
      · obtain ⟨cid', desc', vrds, gi, vrs, hcid', hdesc', hcond, hvr, hgi,
          hb, _⟩ := component_construct_ok_inv _ _ _ hc
        injection hcid' with hcid'
        injection hdesc' with hdesc'
        subst hcid'
        subst hdesc'
        push_neg at hcond
        exact ⟨hcond.1, vrds, gi, hvr, hgi, hcond.2,
          buildVisualResponsesFrom_members _ _ _ hb⟩
    · rintro ⟨hcid, vrds, gi, hvr, hgi, hkc, hmem⟩
      obtain ⟨m, hm⟩ := buildVisualResponsesFrom_ok vrds [] hmem
      have hm' : buildVisualResponses vrds = Except.ok m := hm
      unfold Component.construct
      dsimp only
      rw [hvr, hgi]
      dsimp only
      rw [if_neg (by push_neg; exact ⟨hcid, hkc⟩), hm', except_bind_ok]
      rfl
  · intro gi hvr hgi hcid hkc
    unfold Component.construct
    dsimp only
    rw [hvr, hgi]
    dsimp only
    rw [if_neg (by push_neg; exact ⟨hcid, hkc⟩)]
    rfl
  · intro gi c hgi hc
    obtain ⟨cid', desc', vrds, gi', vrs, hcid', hdesc', hcond, hvr', hgi',
      hb, hceq⟩ := component_construct_ok_inv _ _ _ hc
    injection hdesc' with hdesc'
    subst hdesc'
    rw [hgi] at hgi'
    injection hgi' with hgi'
    subst hgi'
    rw [hceq]

/-- C10: a component built from a description whose visualResponses array
repeats a rootNodeName holds exactly one VisualResponse per rootNodeName —
the one built from the last such entry in array order — and the key set of
the map is exactly the set of distinct rootNodeName values. -/
theorem visualResponses_last_duplicate_wins (cid : String)
    (desc : ComponentDescription) (vrds : List VisualResponseDescription)
    (c : Component) (hvr : desc.visualResponses = some vrds)
    (hc : Component.construct (some cid) (some desc) = Except.ok c) :
    ((c.visualResponses.map Prod.fst).Nodup) ∧
    (∀ r, jsObjectLookup c.visualResponses r =
      (lastDescriptionForRoot vrds r).elim none
        (fun d => (VisualResponse.construct d).toOption)) ∧
    (∀ r, (jsObjectLookup c.visualResponses r).isSome = true ↔
      ∃ d ∈ vrds, d.rootNodeName = some r) := by
  obtain ⟨cid', desc', vrds', gi, vrs, hcid', hdesc', hcond, hvr', hgi', hb,
    hceq⟩ := component_construct_ok_inv _ _ _ hc
  injection hdesc' with hdesc'
  subst hdesc'
  rw [hvr] at hvr'
  injection hvr' with e
  subst e
  have hbuild : buildVisualResponsesFrom [] vrds = Except.ok vrs := hb
  have hcv : c.visualResponses = vrs := by rw [hceq]
  rw [hcv]
  have hlook := fun r => buildVisualResponsesFrom_lookup _ _ _ hbuild r
  refine ⟨buildVisualResponsesFrom_nodup _ _ _ hbuild List.nodup_nil, ?_, ?_⟩
  · intro r
    exact hlook r
  · intro r
    rw [hlook r]
    rcases hl : lastDescriptionForRoot vrds r with _ | d <;>
      simp only [Option.elim_none, Option.elim_some]
    · constructor
      · intro h'
        simp [jsObjectLookup] at h'
      · rintro ⟨d, hd, hdr⟩
        exact absurd hdr (lastDescriptionForRoot_none _ _ hl d hd)
    · obtain ⟨hdmem, hdroot⟩ := lastDescriptionForRoot_mem _ _ _ hl
      obtain ⟨vr, hvrok⟩ := buildVisualResponsesFrom_members _ _ _ hbuild d hdmem
      rw [hvrok]
      exact ⟨fun _ => ⟨d, hdmem, hdroot⟩, fun _ => rfl⟩

/-- Witness for C10: two entries named "A" (differing in targetNodeName)
followed by none: the map holds one entry for "A", built from the second
description. -/
theorem visualResponses_last_duplicate_wins_witness :
    ∃ c : Component,
      Component.construct (some "c")
          (some ⟨none, none, none, none,
            some [⟨some "A", some "T1", some Source.button,
                [ComponentState.default], none, none, none⟩,
              ⟨some "A", some "T2", some Source.button,
                [ComponentState.default], none, none, none⟩],
            some ⟨some 0, none, none⟩⟩) = Except.ok c ∧
      jsObjectLookup c.visualResponses "A" =
        some ⟨"A", "T2", Source.button, [ComponentState.default],
          ResponseProperty.transform, "MIN", "MAX"⟩ := by
  refine ⟨⟨"c", ⟨none, none, none, none,
      some [⟨some "A", some "T1", some Source.button,
          [ComponentState.default], none, none, none⟩,
        ⟨some "A", some "T2", some Source.button,
          [ComponentState.default], none, none, none⟩],
      some ⟨some 0, none, none⟩⟩,
    [("A", ⟨"A", "T2", Source.button, [ComponentState.default],
      ResponseProperty.transform, "MIN", "MAX"⟩)],
    ⟨some 0, none, none, ComponentState.default⟩⟩, rfl, ?_⟩
  have h := (visualResponses_last_duplicate_wins "c"
    ⟨none, none, none, none,
      some [⟨some "A", some "T1", some Source.button,
          [ComponentState.default], none, none, none⟩,
        ⟨some "A", some "T2", some Source.button,
          [ComponentState.default], none, none, none⟩],
      some ⟨some 0, none, none⟩⟩
    [⟨some "A", some "T1", some Source.button,
        [ComponentState.default], none, none, none⟩,
      ⟨some "A", some "T2", some Source.button,
        [ComponentState.default], none, none, none⟩]
    ⟨"c", ⟨none, none, none, none,
      some [⟨some "A", some "T1", some Source.button,
          [ComponentState.default], none, none, none⟩,
        ⟨some "A", some "T2", some Source.button,
          [ComponentState.default], none, none, none⟩],
      some ⟨some 0, none, none⟩⟩,
    [("A", ⟨"A", "T2", Source.button, [ComponentState.default],
      ResponseProperty.transform, "MIN", "MAX"⟩)],
    ⟨some 0, none, none, ComponentState.default⟩⟩ rfl rfl).2.1 "A"
  rw [h]
  rfl

end WebXRProfiles
